import Mathlib

/-!
Verification of the outbound API gateway of the mtracker repository
(internal/service/services.go): the token bucket, the dual-window rate
limiter, the TTL response cache, and the Jikan search gateway.

Time is modelled in integer nanoseconds: Go `time.Time`/`time.Duration`
values are int64 nanosecond counts, the monotonic clock readings passed
to the operations are nonnegative and nondecreasing, so they are
represented as natural numbers.  Token counts are Go ints that the code
keeps nonnegative (the only decrement is guarded by `tokens > 0`), so
they are also represented as naturals.
-/

namespace MTracker

/-- services.go: `func min(a, b int) int`. -/
def goMin (a b : Nat) : Nat := if a < b then a else b

/-- services.go: `type TokenBucket struct`. -/
structure TokenBucket where
  tokens     : Nat
  maxTokens  : Nat
  lastRefill : Nat
  refillRate : Nat
deriving DecidableEq

/-- services.go: `func NewTokenBucket`; `lastRefill` is `time.Now()` at creation. -/
def NewTokenBucket (maxTokens refillRate now : Nat) : TokenBucket :=
  { tokens := maxTokens, maxTokens := maxTokens, lastRefill := now, refillRate := refillRate }

/-- The refill phase of `TokenBucket.allow` (services.go lines 76-83):
`tokensToAdd := int(elapsed / t.refillRate)`; when positive, tokens are
topped up (capped at `maxTokens`) and `lastRefill` is set to `now`. -/
def TokenBucket.refill (t : TokenBucket) (now : Nat) : TokenBucket :=
  if 0 < (now - t.lastRefill) / t.refillRate then
    { t with tokens := goMin t.maxTokens (t.tokens + (now - t.lastRefill) / t.refillRate)
             lastRefill := now }
  else t

/-- services.go: `func (t *TokenBucket) allow() bool`: lazy refill, then
consume one token when available. -/
def TokenBucket.allow (t : TokenBucket) (now : Nat) : TokenBucket × Bool :=
  if 0 < (t.refill now).tokens then
    ({ t.refill now with tokens := (t.refill now).tokens - 1 }, true)
  else (t.refill now, false)

/-- services.go: `type RateLimiter struct` (two windows for one provider). -/
structure RateLimiter where
  secondLimiter : TokenBucket
  minuteLimiter : TokenBucket
deriving DecidableEq

/-- services.go: `func NewRateLimiter`. -/
def NewRateLimiter (maxTokens refillRate now : Nat) : RateLimiter :=
  { secondLimiter := NewTokenBucket maxTokens refillRate now
    minuteLimiter := NewTokenBucket maxTokens refillRate now }

/-- services.go: `func (r *RateLimiter) Allow() bool`.  The Go condition
`!r.secondLimiter.allow() || !r.minuteLimiter.allow()` short-circuits:
the minute bucket is consulted only when the second bucket admitted. -/
def RateLimiter.Allow (r : RateLimiter) (now : Nat) : RateLimiter × Bool :=
  let s := r.secondLimiter.allow now
  if s.2 then
    let m := r.minuteLimiter.allow now
    ({ secondLimiter := s.1, minuteLimiter := m.1 }, m.2)
  else
    ({ r with secondLimiter := s.1 }, false)

/-- models package: `type JikanAnime struct` (the payload fields besides
the identifying ones play no role in the gateway logic). -/
structure JikanAnime where
  malId : Int
  title : String
deriving DecidableEq

/-- models package: `type JikanSearchResponse struct { Data []JikanAnime }`. -/
structure JikanSearchResponse where
  data : List JikanAnime
deriving DecidableEq

/-- The dynamic (interface-typed) values stored in `APIClient.cache`:
`SearchAnime` stores `[]JikanAnime`, `SearchTMDB` stores `[]TMDBMedia`. -/
inductive CacheData where
  | jikanList (anime : List JikanAnime)
  | tmdbList
deriving DecidableEq

/-- services.go: `type CacheEntry struct`. -/
structure CacheEntry where
  Data      : CacheData
  ExpiresAt : Nat
deriving DecidableEq

/-- The `cache map[string]*CacheEntry` field, as an association list with
at most one binding per key (every write goes through `setCache`). -/
abbrev Cache := List (String × CacheEntry)

/-- Go `delete(t.cache, key)`. -/
def eraseKey (c : Cache) (key : String) : Cache :=
  c.filter (fun kv => kv.1 != key)

/-- services.go: `func (t *APIClient) getCache`.  Returns the updated
store (a hit on an expired entry deletes it), the data, and the found
flag; `time.Now().After(entry.ExpiresAt)` is the strict test
`ExpiresAt < now`. -/
def getCache (c : Cache) (key : String) (now : Nat) :
    Cache × Option CacheData × Bool :=
  match c.lookup key with
  | none => (c, none, false)
  | some entry =>
    if entry.ExpiresAt < now then (eraseKey c key, none, false)
    else (c, some entry.Data, true)

/-- services.go: `func (t *APIClient) setCache`; map assignment is
modelled as erase-then-prepend, `ExpiresAt = time.Now().Add(ttl)`. -/
def setCache (c : Cache) (key : String) (data : CacheData) (now ttl : Nat) : Cache :=
  (key, { Data := data, ExpiresAt := now + ttl }) :: eraseKey c key

def timeMillisecond : Nat := 1000000
def timeSecond : Nat := 1000000000
def timeMinute : Nat := 60 * timeSecond
def timeHour : Nat := 60 * timeMinute

/-- The typed failures `SearchAnime` can return (services.go lines
176-195): missing limiter, rate limit exceeded, transport error from
`httpClient.Get`, or a `json.Decode` failure. -/
inductive SearchError where
  | rateLimiterNotConfigured
  | rateLimitExceeded
  | transportError
  | decodeError
deriving DecidableEq

/-- An HTTP response as `SearchAnime` consumes it: the status code (which
the source never reads) and the outcome of `json.Decode` on the body. -/
structure HTTPResponse where
  StatusCode : Nat
  BodyDecode : Option JikanSearchResponse
deriving DecidableEq

/-- services.go: `type APIClient struct` (the http client itself is
modelled by the transport argument of `SearchAnime`). -/
structure APIClient where
  tmdbAPIKey   : String
  rateLimiters : List (String × RateLimiter)
  cache        : Cache
deriving DecidableEq

/-- In Go the bucket states are mutated through the `*RateLimiter` held
in the map; modelled as an update of the map entry. -/
def updateLimiter (rs : List (String × RateLimiter)) (key : String) (r : RateLimiter) :
    List (String × RateLimiter) :=
  rs.map (fun kv => if kv.1 == key then (kv.1, r) else kv)

/-- services.go lines 111-114: the hand-built jikan limiter
(3 requests/second, 60 requests/minute). -/
def jikanLimiter (now : Nat) : RateLimiter :=
  { secondLimiter := NewTokenBucket 3 timeSecond now
    minuteLimiter := NewTokenBucket 60 timeMinute now }

/-- services.go: `func NewAPIClient`. -/
def NewAPIClient (tmdbAPIKey : String) (now : Nat) : APIClient :=
  { tmdbAPIKey := tmdbAPIKey
    rateLimiters :=
      [("jikan", jikanLimiter now), ("tmdb", NewRateLimiter 40 (10 * timeSecond) now)]
    cache := [] }

/-- Result of one `SearchAnime` call: the client state after the call,
the returned value or typed error, and whether `httpClient.Get` ran. -/
structure SearchOutcome where
  client        : APIClient
  result        : Except SearchError (List JikanAnime)
  networkCalled : Bool

/-- services.go: `func (t *APIClient) SearchAnime`.  Cache lookup (with
lazy eviction); on a hit whose value type-asserts to `[]JikanAnime`,
return it; otherwise look up and consult the jikan limiter; on admission
perform the network call, decode, cache the decoded data for one hour. -/
def APIClient.SearchAnime (t : APIClient) (query : String) (now : Nat)
    (transport : Option HTTPResponse) : SearchOutcome :=
  let cacheKey := "jikan:" ++ query
  let gc := getCache t.cache cacheKey now
  let t1 : APIClient := { t with cache := gc.1 }
  let hit : Option (List JikanAnime) :=
    if gc.2.2 then
      match gc.2.1 with
      | some (CacheData.jikanList anime) => some anime
      | _ => none
    else none
  match hit with
  | some anime => { client := t1, result := .ok anime, networkCalled := false }
  | none =>
    match t1.rateLimiters.lookup "jikan" with
    | none => { client := t1, result := .error .rateLimiterNotConfigured, networkCalled := false }
    | some limiter =>
      let al := limiter.Allow now
      let t2 : APIClient := { t1 with rateLimiters := updateLimiter t1.rateLimiters "jikan" al.1 }
      if al.2 then
        match transport with
        | none => { client := t2, result := .error .transportError, networkCalled := true }
        | some resp =>
          match resp.BodyDecode with
          | none => { client := t2, result := .error .decodeError, networkCalled := true }
          | some searchResp =>
            let t3 : APIClient :=
              { t2 with
                cache := setCache t2.cache cacheKey (.jikanList searchResp.data) now timeHour }
            { client := t3, result := .ok searchResp.data, networkCalled := true }
      else
        { client := t2, result := .error .rateLimitExceeded, networkCalled := false }

/-- Number of admissions when a single bucket serves admission checks at
the given (nondecreasing) times. -/
def runBucket (t : TokenBucket) (ts : List Nat) : Nat :=
  match ts with
  | [] => 0
  | u :: rest =>
    let p := t.allow u
    (if p.2 then 1 else 0) + runBucket p.1 rest

/-- Number of `Allow` admissions whose call time lies in the closed
interval `[a, b]`, over a sequence of calls at the given times. -/
def runLimiterWindow (r : RateLimiter) (ts : List Nat) (a b : Nat) : Nat :=
  match ts with
  | [] => 0
  | u :: rest =>
    (if (r.Allow u).2 = true ∧ a ≤ u ∧ u ≤ b then 1 else 0) +
      runLimiterWindow (r.Allow u).1 rest a b

/-- Availability potential of a bucket for the window `[a, b]`: an upper
bound on the admissions the bucket can still grant at call times inside
the window.  Fresh case (the last refill may still feed the window's
start): current tokens plus the whole refill intervals between
`lastRefill` and `b`; stale case: the bucket will be capped at capacity
by its first in-window consult, plus the intervals inside the window. -/
def PhiB (st : TokenBucket) (a b : Nat) : Nat :=
  if a < st.lastRefill + st.refillRate then
    st.tokens + (b - st.lastRefill) / st.refillRate
  else
    st.maxTokens + (b - a) / st.refillRate

/-- Executable nondecreasing-from check, used to discharge
`List.Chain (· ≤ ·)` hypotheses on concrete traces. -/
def nondecFrom (c : Nat) : List Nat → Bool
  | [] => true
  | u :: rest => decide (c ≤ u) && nondecFrom u rest

/-- A client used to exhibit the behaviour of `SearchAnime` under a
rejecting rate limiter: both jikan buckets empty, one expired cache
entry under the key for query "q". -/
def c2client : APIClient :=
  { tmdbAPIKey := ""
    rateLimiters := [("jikan", ⟨⟨0, 3, 0, 1000000000⟩, ⟨0, 60, 0, 60000000000⟩⟩)]
    cache := [("jikan:q", ⟨.jikanList [], 0⟩)] }

/-- Call trace: three calls at time 0, one each second from 1s to 57s,
and one at 60s.  All 61 calls fall inside the closed window
`[0, 60 seconds]` and all are admitted by the jikan limiter. -/
def c6trace : List Nat :=
  [0, 0, 0] ++ (List.range 57).map (fun k => (k + 1) * timeSecond) ++ [60 * timeSecond]

/-! ## Basic lemmas about the bucket operations -/

theorem goMin_eq_min (a b : Nat) : goMin a b = min a b := by
  unfold goMin
  split <;> omega

theorem allow_false_state (t : TokenBucket) (now : Nat)
    (h : (t.allow now).2 = false) : (t.allow now).1 = t.refill now := by
  unfold TokenBucket.allow at h ⊢
  split at h
  · simp at h
  · split
    · omega
    · rfl

theorem allow_true_state (t : TokenBucket) (now : Nat)
    (h : (t.allow now).2 = true) :
    (t.allow now).1 = { t.refill now with tokens := (t.refill now).tokens - 1 } := by
  unfold TokenBucket.allow at h ⊢
  split at h
  · split
    · rfl
    · omega
  · simp at h

theorem lookup_eraseKey (c : Cache) (key : String) :
    (eraseKey c key).lookup key = none := by
  induction c with
  | nil => rfl
  | cons kv rest ih =>
    by_cases hk : kv.1 = key
    · simpa [eraseKey, List.filter_cons, hk] using ih
    · have h1 : (kv.1 != key) = true := by simpa using hk
      have h2 : (key == kv.1) = false := by simpa using fun h => hk h.symm
      simpa [eraseKey, List.filter_cons, h1, h2, List.lookup] using ih

theorem length_eraseKey_lt (c : Cache) (key : String) (e : CacheEntry)
    (h : c.lookup key = some e) : (eraseKey c key).length < c.length := by
  induction c with
  | nil => simp [List.lookup] at h
  | cons kv rest ih =>
    by_cases hk : kv.1 = key
    · have hle := List.length_filter_le (fun kv : String × CacheEntry => kv.1 != key) rest
      simp [eraseKey, List.filter_cons, hk]
      omega
    · have h1 : (kv.1 != key) = true := by simpa using hk
      have h2 : (key == kv.1) = false := by simpa using fun h => hk h.symm
      simp only [List.lookup, h2] at h
      have := ih h
      rw [eraseKey] at this
      simp [eraseKey, List.filter_cons, h1]
      omega

/-! ## Claim C4: refill accounting of `TokenBucket.allow` -/

/-- C4, counterexample: the claim says `lastRefill` advances by exactly
`tokensAdded * refillInterval`.  For the bucket with `refillRate = 2`,
`lastRefill = 0`, checked at `now = 3`, one token is added, so the claim
predicts `lastRefill = 2`; the code sets it to `now = 3`. -/
theorem tokenBucket_lastRefill_advance_cex :
    ((⟨3, 3, 0, 2⟩ : TokenBucket).allow 3).1.lastRefill = 3 ∧
    (3 : Nat) ≠ 0 + ((3 - 0) / 2) * 2 := by
  decide

/-- C4, amended: on every admission check the bucket adds
`floor(elapsed / refillInterval)` tokens capped at capacity, and when at
least one token is added it advances `lastRefill` to the current time
(not by the consumed whole intervals), discarding fractional progress;
when no token is added the bucket state is left unchanged by the refill
phase. -/
theorem tokenBucket_refill_semantics (t : TokenBucket) (now : Nat) :
    (0 < (now - t.lastRefill) / t.refillRate →
      (t.refill now).tokens = min t.maxTokens (t.tokens + (now - t.lastRefill) / t.refillRate) ∧
      (t.refill now).lastRefill = now) ∧
    ((now - t.lastRefill) / t.refillRate = 0 → t.refill now = t) ∧
    (t.allow now).1.lastRefill = (t.refill now).lastRefill := by
  refine ⟨fun h => ?_, fun h => ?_, ?_⟩
  · rw [TokenBucket.refill]
    simp only [h, if_pos]
    exact ⟨goMin_eq_min _ _, trivial⟩
  · rw [TokenBucket.refill]
    simp [h]
  · unfold TokenBucket.allow
    split
    · rfl
    · rfl

/-- C4 witness: at a concrete input, one token is refilled and
`lastRefill` lands on `now`. -/
theorem tokenBucket_refill_semantics_witness :
    ((⟨0, 3, 0, 2⟩ : TokenBucket).refill 3).tokens = min 3 (0 + (3 - 0) / 2) ∧
    ((⟨0, 3, 0, 2⟩ : TokenBucket).refill 3).lastRefill = 3 :=
  (tokenBucket_refill_semantics ⟨0, 3, 0, 2⟩ 3).1 (by decide)

/-! ## Claim C10: short-bucket rejection leaves the minute bucket alone -/

/-- C10: when the second-window bucket rejects, `Allow` short-circuits:
it returns false and the minute bucket's entire state is untouched. -/
theorem allow_short_reject_frames_minute (r : RateLimiter) (now : Nat)
    (h : (r.secondLimiter.allow now).2 = false) :
    (r.Allow now).1.minuteLimiter = r.minuteLimiter ∧ (r.Allow now).2 = false := by
  unfold RateLimiter.Allow
  simp [h]

/-- C10 witness: a limiter whose second bucket is empty. -/
theorem allow_short_reject_frames_minute_witness :
    ((⟨⟨0, 3, 0, 1000000000⟩, ⟨60, 60, 0, 60000000000⟩⟩ : RateLimiter).Allow 0).1.minuteLimiter =
      (⟨⟨0, 3, 0, 1000000000⟩, ⟨60, 60, 0, 60000000000⟩⟩ : RateLimiter).minuteLimiter ∧
    ((⟨⟨0, 3, 0, 1000000000⟩, ⟨60, 60, 0, 60000000000⟩⟩ : RateLimiter).Allow 0).2 = false :=
  allow_short_reject_frames_minute _ 0 (by decide)

/-! ## Claim C1: token consumption on a rejected `Allow` -/

/-- C1, counterexample: with one token in the second bucket and an empty
minute bucket, `Allow` returns false yet the second bucket's token was
consumed (post-count 0, lazily-refilled pre-decision count 1). -/
theorem allow_reject_drains_short_cex :
    ((⟨⟨1, 3, 0, 1000000000⟩, ⟨0, 60, 0, 60000000000⟩⟩ : RateLimiter).Allow 0).2 = false ∧
    ((⟨⟨1, 3, 0, 1000000000⟩, ⟨0, 60, 0, 60000000000⟩⟩ : RateLimiter).Allow 0).1.secondLimiter.tokens ≠
      ((⟨1, 3, 0, 1000000000⟩ : TokenBucket).refill 0).tokens := by
  decide

/-- C1, amended: when `Allow` returns false, the minute bucket never
loses a token, but the buckets are not rolled back as one unit: if the
second bucket rejected, it sits at its lazily-refilled count and the
minute bucket is completely untouched (not even refilled); if the second
bucket admitted (and hence the minute bucket rejected), the second
bucket has consumed one token from its refilled count and the minute
bucket sits at its refilled count. -/
theorem allow_reject_token_accounting (r : RateLimiter) (now : Nat)
    (h : (r.Allow now).2 = false) :
    ((r.secondLimiter.allow now).2 = false →
      (r.Allow now).1.secondLimiter = r.secondLimiter.refill now ∧
      (r.Allow now).1.minuteLimiter = r.minuteLimiter) ∧
    ((r.secondLimiter.allow now).2 = true →
      (r.Allow now).1.secondLimiter =
        { r.secondLimiter.refill now with tokens := (r.secondLimiter.refill now).tokens - 1 } ∧
      (r.Allow now).1.minuteLimiter = r.minuteLimiter.refill now) := by
  constructor
  · intro hs
    unfold RateLimiter.Allow
    simp only [hs, Bool.false_eq_true, if_neg, ite_false]
    exact ⟨allow_false_state _ _ hs, trivial⟩
  · intro hs
    have hm : (r.minuteLimiter.allow now).2 = false := by
      unfold RateLimiter.Allow at h
      simp only [hs, if_true, ite_true] at h
      exact h
    unfold RateLimiter.Allow
    simp only [hs, if_true, ite_true]
    exact ⟨allow_true_state _ _ hs, allow_false_state _ _ hm⟩

/-- C1 witness: the second bucket admits, the minute bucket rejects; the
second bucket ends one below its refilled count, the minute bucket ends
at its refilled count. -/
theorem allow_reject_token_accounting_witness :
    ((⟨⟨1, 3, 0, 1000000000⟩, ⟨0, 60, 0, 60000000000⟩⟩ : RateLimiter).Allow 0).1.secondLimiter =
      { (⟨1, 3, 0, 1000000000⟩ : TokenBucket).refill 0 with
        tokens := ((⟨1, 3, 0, 1000000000⟩ : TokenBucket).refill 0).tokens - 1 } ∧
    ((⟨⟨1, 3, 0, 1000000000⟩, ⟨0, 60, 0, 60000000000⟩⟩ : RateLimiter).Allow 0).1.minuteLimiter =
      (⟨0, 60, 0, 60000000000⟩ : TokenBucket).refill 0 :=
  (allow_reject_token_accounting _ 0 (by decide)).2 (by decide)

/-! ## Claim C7: cache get/put and lazy expiry eviction -/

/-- C7: a `get` immediately after `put(key, v, ttl)` with positive ttl
returns `(v, true)`; a `get` strictly after the entry's `ExpiresAt`
returns not-found, removes the entry, and the store's size shrinks. -/
theorem cache_put_get_expire :
    (∀ (c : Cache) (key : String) (v : CacheData) (now ttl : Nat), 0 < ttl →
      getCache (setCache c key v now ttl) key now = (setCache c key v now ttl, some v, true)) ∧
    (∀ (c : Cache) (key : String) (e : CacheEntry) (now : Nat),
      c.lookup key = some e → e.ExpiresAt < now →
      getCache c key now = (eraseKey c key, none, false) ∧
      (eraseKey c key).lookup key = none ∧
      (eraseKey c key).length < c.length) := by
  constructor
  · intro c key v now ttl _
    rw [getCache, setCache]
    simp only [List.lookup, beq_self_eq_true]
    rw [if_neg (by omega)]
  · intro c key e now hl he
    refine ⟨?_, lookup_eraseKey c key, length_eraseKey_lt c key e hl⟩
    rw [getCache, hl]
    simp [he]

/-- C7 witness: a fresh put is found with its value; a stale entry is
evicted and the store shrinks to empty. -/
theorem cache_put_get_expire_witness :
    getCache (setCache [] "k" (.jikanList []) 5 3) "k" 5 =
      (setCache [] "k" (.jikanList []) 5 3, some (.jikanList []), true) ∧
    getCache [("k", ⟨.jikanList [], 5⟩)] "k" 9 =
      (eraseKey [("k", ⟨.jikanList [], 5⟩)] "k", none, false) :=
  ⟨cache_put_get_expire.1 [] "k" (.jikanList []) 5 3 (by decide),
   (cache_put_get_expire.2 [("k", ⟨.jikanList [], 5⟩)] "k" ⟨.jikanList [], 5⟩ 9 rfl
     (by decide)).1⟩

/-! ## Gateway path lemmas -/

theorem getCache_miss_lookup_none (c : Cache) (key : String) (now : Nat)
    (h : (getCache c key now).2.2 = false) :
    (getCache c key now).1.lookup key = none := by
  cases hl : c.lookup key with
  | none => simp [getCache, hl]
  | some e =>
    by_cases he : e.ExpiresAt < now
    · simp [getCache, hl, he, lookup_eraseKey]
    · simp [getCache, hl, he] at h

/-- On a fresh cache hit whose value is a `[]JikanAnime`, `SearchAnime`
returns the cached payload and leaves the whole client untouched. -/
theorem searchAnime_hit (t : APIClient) (query : String) (now : Nat)
    (transport : Option HTTPResponse) (anime : List JikanAnime) (e : CacheEntry)
    (hl : t.cache.lookup ("jikan:" ++ query) = some e)
    (hd : e.Data = .jikanList anime)
    (he : ¬ e.ExpiresAt < now) :
    t.SearchAnime query now transport =
      { client := t, result := .ok anime, networkCalled := false } := by
  have hgc : getCache t.cache ("jikan:" ++ query) now = (t.cache, some e.Data, true) := by
    simp [getCache, hl, he]
  unfold APIClient.SearchAnime
  simp only [hgc, hd, if_true, ite_true]

/-- On a cache miss with an admitting limiter and a decodable response,
`SearchAnime` runs the network call, caches the decoded data for one
hour and returns it. -/
theorem searchAnime_success (t : APIClient) (query : String) (now s : Nat)
    (sr : JikanSearchResponse) (lim : RateLimiter)
    (hmiss : (getCache t.cache ("jikan:" ++ query) now).2.2 = false)
    (hlim : t.rateLimiters.lookup "jikan" = some lim)
    (hadm : (lim.Allow now).2 = true) :
    t.SearchAnime query now (some ⟨s, some sr⟩) =
      { client := { t with
          rateLimiters := updateLimiter t.rateLimiters "jikan" (lim.Allow now).1,
          cache := setCache (getCache t.cache ("jikan:" ++ query) now).1 ("jikan:" ++ query)
            (.jikanList sr.data) now timeHour },
        result := .ok sr.data, networkCalled := true } := by
  unfold APIClient.SearchAnime
  simp only [hmiss, Bool.false_eq_true, if_false, hlim, hadm, if_true, ite_true, ite_false]

/-- On a cache miss with a rejecting limiter, `SearchAnime` fails fast:
no network call, a `rateLimitExceeded` error, and the cache exactly as
the lookup left it. -/
theorem searchAnime_ratelimited (t : APIClient) (query : String) (now : Nat)
    (transport : Option HTTPResponse) (lim : RateLimiter)
    (hmiss : (getCache t.cache ("jikan:" ++ query) now).2.2 = false)
    (hlim : t.rateLimiters.lookup "jikan" = some lim)
    (hrej : (lim.Allow now).2 = false) :
    t.SearchAnime query now transport =
      { client := { t with
          rateLimiters := updateLimiter t.rateLimiters "jikan" (lim.Allow now).1,
          cache := (getCache t.cache ("jikan:" ++ query) now).1 },
        result := .error .rateLimitExceeded, networkCalled := false } := by
  unfold APIClient.SearchAnime
  simp only [hmiss, Bool.false_eq_true, if_false, hlim, hrej, ite_false]

/-! ## Claim C2: fail-fast on rate-limit rejection -/

/-- C2, counterexample: the key misses because its entry is expired; the
limiter rejects; the call returns `rateLimitExceeded` with no network
call, yet the cache is NOT unchanged — the lookup evicted the expired
entry. -/
theorem searchAnime_rate_limited_cache_changed_cex :
    (c2client.SearchAnime "q" 1 none).result = .error .rateLimitExceeded ∧
    (c2client.SearchAnime "q" 1 none).networkCalled = false ∧
    (c2client.SearchAnime "q" 1 none).client.cache ≠ c2client.cache := by
  refine ⟨rfl, rfl, ?_⟩
  decide

/-- C2, amended: on a cache miss with a rejecting limiter, `SearchAnime`
returns a `rateLimitExceeded` error, performs zero network calls, and
stores nothing in the cache: the cache is exactly as the lookup left it
(unchanged, except that an expired entry under the queried key, if any,
was lazily evicted), and in particular no entry for the key is present
afterwards. -/
theorem searchAnime_rate_limited_fail_fast (t : APIClient) (query : String) (now : Nat)
    (transport : Option HTTPResponse) (lim : RateLimiter)
    (hmiss : (getCache t.cache ("jikan:" ++ query) now).2.2 = false)
    (hlim : t.rateLimiters.lookup "jikan" = some lim)
    (hrej : (lim.Allow now).2 = false) :
    (t.SearchAnime query now transport).result = .error .rateLimitExceeded ∧
    (t.SearchAnime query now transport).networkCalled = false ∧
    (t.SearchAnime query now transport).client.cache =
      (getCache t.cache ("jikan:" ++ query) now).1 ∧
    (t.SearchAnime query now transport).client.cache.lookup ("jikan:" ++ query) = none := by
  rw [searchAnime_ratelimited t query now transport lim hmiss hlim hrej]
  exact ⟨rfl, rfl, rfl, getCache_miss_lookup_none _ _ _ hmiss⟩

/-- C2 witness: a truly absent key and an empty limiter. -/
theorem searchAnime_rate_limited_fail_fast_witness :
    ((c2client.SearchAnime "r" 1 none).result = .error .rateLimitExceeded ∧
     (c2client.SearchAnime "r" 1 none).networkCalled = false ∧
     (c2client.SearchAnime "r" 1 none).client.cache =
       (getCache c2client.cache ("jikan:" ++ "r") 1).1 ∧
     (c2client.SearchAnime "r" 1 none).client.cache.lookup ("jikan:" ++ "r") = none) :=
  searchAnime_rate_limited_fail_fast c2client "r" 1 none
    ⟨⟨0, 3, 0, 1000000000⟩, ⟨0, 60, 0, 60000000000⟩⟩ (by decide) (by decide) (by decide)

/-! ## Claim C3: second identical query within the TTL is served from cache -/

/-- C3: after a successful first query, a second identical query within
the one-hour TTL is answered from the cache: no network call, the same
payload, and the whole client state (cache and rate limiters) untouched;
exactly one network call happens across the two calls. -/
theorem searchAnime_cached_second_call (t : APIClient) (query : String)
    (now₁ now₂ s : Nat) (sr : JikanSearchResponse) (lim : RateLimiter)
    (transport₂ : Option HTTPResponse)
    (hmiss : (getCache t.cache ("jikan:" ++ query) now₁).2.2 = false)
    (hlim : t.rateLimiters.lookup "jikan" = some lim)
    (hadm : (lim.Allow now₁).2 = true)
    (httl : now₂ ≤ now₁ + timeHour) :
    ((t.SearchAnime query now₁ (some ⟨s, some sr⟩)).networkCalled = true ∧
     (t.SearchAnime query now₁ (some ⟨s, some sr⟩)).result = .ok sr.data) ∧
    (((t.SearchAnime query now₁ (some ⟨s, some sr⟩)).client.SearchAnime query now₂
        transport₂).networkCalled = false ∧
     ((t.SearchAnime query now₁ (some ⟨s, some sr⟩)).client.SearchAnime query now₂
        transport₂).result = .ok sr.data ∧
     ((t.SearchAnime query now₁ (some ⟨s, some sr⟩)).client.SearchAnime query now₂
        transport₂).client = (t.SearchAnime query now₁ (some ⟨s, some sr⟩)).client) := by
  rw [searchAnime_success t query now₁ s sr lim hmiss hlim hadm]
  refine ⟨⟨rfl, rfl⟩, ?_⟩
  rw [searchAnime_hit _ query now₂ transport₂ sr.data
    ⟨.jikanList sr.data, now₁ + timeHour⟩ (by simp [setCache, List.lookup]) rfl
    (by show ¬ now₁ + timeHour < now₂; omega)]
  exact ⟨rfl, rfl, rfl⟩

/-- C3 witness: a fresh client, two queries one second apart. -/
theorem searchAnime_cached_second_call_witness :
    ((((NewAPIClient "" 0).SearchAnime "x" 0
        (some ⟨200, some ⟨[⟨1, "t"⟩]⟩⟩)).client.SearchAnime "x" timeSecond
        none).networkCalled = false ∧
     (((NewAPIClient "" 0).SearchAnime "x" 0
        (some ⟨200, some ⟨[⟨1, "t"⟩]⟩⟩)).client.SearchAnime "x" timeSecond
        none).result = .ok (⟨[⟨1, "t"⟩]⟩ : JikanSearchResponse).data ∧
     (((NewAPIClient "" 0).SearchAnime "x" 0
        (some ⟨200, some ⟨[⟨1, "t"⟩]⟩⟩)).client.SearchAnime "x" timeSecond
        none).client = ((NewAPIClient "" 0).SearchAnime "x" 0
        (some ⟨200, some ⟨[⟨1, "t"⟩]⟩⟩)).client) :=
  (searchAnime_cached_second_call (NewAPIClient "" 0) "x" 0 timeSecond 200
    ⟨[⟨1, "t"⟩]⟩ (jikanLimiter 0) none rfl rfl (by decide) (by decide)).2

/-! ## Claim C9: the HTTP status code is never inspected -/

/-- C9: the gateway's behaviour does not depend on the response's HTTP
status code, and any response whose body decodes is returned as a
success and cached for one hour — even when the status code signals a
provider error. -/
theorem searchAnime_ignores_status_code :
    (∀ (t : APIClient) (query : String) (now s s' : Nat)
       (body : Option JikanSearchResponse),
      t.SearchAnime query now (some ⟨s, body⟩) = t.SearchAnime query now (some ⟨s', body⟩)) ∧
    (∀ (t : APIClient) (query : String) (now s : Nat) (sr : JikanSearchResponse)
       (lim : RateLimiter),
      (getCache t.cache ("jikan:" ++ query) now).2.2 = false →
      t.rateLimiters.lookup "jikan" = some lim →
      (lim.Allow now).2 = true →
      (t.SearchAnime query now (some ⟨s, some sr⟩)).result = .ok sr.data ∧
      (t.SearchAnime query now (some ⟨s, some sr⟩)).client.cache.lookup ("jikan:" ++ query) =
        some ⟨.jikanList sr.data, now + timeHour⟩) := by
  constructor
  · intro t query now s s' body
    rfl
  · intro t query now s sr lim hmiss hlim hadm
    rw [searchAnime_success t query now s sr lim hmiss hlim hadm]
    refine ⟨rfl, ?_⟩
    rw [setCache]
    simp [List.lookup]

/-- C9 witness: a response with status 500 and a decodable body is served
as a success and cached for one hour. -/
theorem searchAnime_ignores_status_code_witness :
    ((NewAPIClient "" 0).SearchAnime "x" 0 (some ⟨500, some ⟨[]⟩⟩)).result =
      .ok (⟨[]⟩ : JikanSearchResponse).data ∧
    ((NewAPIClient "" 0).SearchAnime "x" 0
        (some ⟨500, some ⟨[]⟩⟩)).client.cache.lookup ("jikan:" ++ "x") =
      some ⟨.jikanList (⟨[]⟩ : JikanSearchResponse).data, 0 + timeHour⟩ :=
  searchAnime_ignores_status_code.2 (NewAPIClient "" 0) "x" 0 500 ⟨[]⟩ (jikanLimiter 0)
    rfl rfl (by decide)

/-! ## Claim C5: global admission bound of a token bucket -/

theorem div_add_div_le (a b i : Nat) : a / i + b / i ≤ (a + b) / i := by
  rcases Nat.eq_zero_or_pos i with hz | hp
  · subst hz; simp
  · rw [Nat.le_div_iff_mul_le hp, Nat.add_mul]
    exact Nat.add_le_add (Nat.div_mul_le_self a i) (Nat.div_mul_le_self b i)

theorem chain_le_getLastD (c : Nat) (ts : List Nat)
    (h : List.Chain (· ≤ ·) c ts) : c ≤ ts.getLastD c := by
  induction ts generalizing c with
  | nil => exact le_refl c
  | cons u rest ih =>
    obtain ⟨hcu, h2⟩ := List.chain_cons.mp h
    rw [List.getLastD_cons]
    exact le_trans hcu (ih u h2)

theorem refill_refillRate (t : TokenBucket) (now : Nat) :
    (t.refill now).refillRate = t.refillRate := by
  unfold TokenBucket.refill
  split <;> rfl

theorem refill_maxTokens (t : TokenBucket) (now : Nat) :
    (t.refill now).maxTokens = t.maxTokens := by
  unfold TokenBucket.refill
  split <;> rfl

theorem refill_lastRefill_le (t : TokenBucket) (now : Nat) (h : t.lastRefill ≤ now) :
    (t.refill now).lastRefill ≤ now := by
  unfold TokenBucket.refill
  split
  · exact le_refl now
  · exact h

/-- Key step: the "available budget by time m" potential
`tokens + (m - lastRefill)/rate` never increases across a refill. -/
theorem refill_potential (t : TokenBucket) (u m : Nat)
    (hL : t.lastRefill ≤ u) (hu : u ≤ m) :
    (t.refill u).tokens + (m - (t.refill u).lastRefill) / t.refillRate ≤
      t.tokens + (m - t.lastRefill) / t.refillRate := by
  unfold TokenBucket.refill
  split
  · simp only
    have h1 : goMin t.maxTokens (t.tokens + (u - t.lastRefill) / t.refillRate) ≤
        t.tokens + (u - t.lastRefill) / t.refillRate := by
      rw [goMin_eq_min]; exact min_le_right _ _
    have h3 := div_add_div_le (u - t.lastRefill) (m - u) t.refillRate
    have h4 : u - t.lastRefill + (m - u) = m - t.lastRefill := by omega
    rw [h4] at h3
    omega
  · exact le_refl _

theorem allow_state_fields (t : TokenBucket) (now : Nat) :
    (t.allow now).1.refillRate = t.refillRate ∧
    (t.allow now).1.maxTokens = t.maxTokens ∧
    (t.allow now).1.lastRefill = (t.refill now).lastRefill ∧
    ((t.allow now).2 = true →
      0 < (t.refill now).tokens ∧ (t.allow now).1.tokens = (t.refill now).tokens - 1) ∧
    ((t.allow now).2 = false →
      (t.refill now).tokens = 0 ∧ (t.allow now).1.tokens = 0) := by
  unfold TokenBucket.allow
  split
  case isTrue h =>
    refine ⟨refill_refillRate t now, refill_maxTokens t now, rfl,
      fun _ => ⟨h, rfl⟩, fun hb => ?_⟩
    simp at hb
  case isFalse h =>
    refine ⟨refill_refillRate t now, refill_maxTokens t now, rfl,
      fun hb => ?_, fun _ => ⟨by omega, ?_⟩⟩
    · simp at hb
    · show (t.refill now).tokens = 0
      omega

theorem runBucket_le (ts : List Nat) : ∀ (t : TokenBucket) (c : Nat),
    List.Chain (· ≤ ·) c ts → t.lastRefill ≤ c →
    runBucket t ts ≤ t.tokens + (ts.getLastD c - t.lastRefill) / t.refillRate := by
  induction ts with
  | nil => intro t c _ _; simp [runBucket]
  | cons u rest ih =>
    intro t c hch hL
    obtain ⟨hcu, hch2⟩ := List.chain_cons.mp hch
    have hLu : t.lastRefill ≤ u := le_trans hL hcu
    have hule : u ≤ rest.getLastD u := chain_le_getLastD u rest hch2
    obtain ⟨hrate, _, hlast, htrue, hfalse⟩ := allow_state_fields t u
    have hIH := ih (t.allow u).1 u hch2 (by rw [hlast]; exact refill_lastRefill_le t u hLu)
    rw [hrate, hlast] at hIH
    have hpot := refill_potential t u (rest.getLastD u) hLu hule
    simp only [runBucket, List.getLastD_cons]
    cases hb : (t.allow u).2
    · obtain ⟨hz, htok⟩ := hfalse hb
      rw [htok] at hIH
      simp only [Bool.false_eq_true, if_false]
      omega
    · obtain ⟨hpos, htok⟩ := htrue hb
      rw [htok] at hIH
      simp only [if_true]
      omega

/-- C5: starting from a fresh bucket of capacity `cap` created at `t0`,
any nondecreasing sequence of admission checks admits at most
`cap + floor((lastCallTime - t0) / refillInterval)` requests. -/
theorem tokenBucket_admission_bound (cap i t0 : Nat) (ts : List Nat)
    (hch : List.Chain (· ≤ ·) t0 ts) :
    runBucket (NewTokenBucket cap i t0) ts ≤ cap + (ts.getLastD t0 - t0) / i :=
  runBucket_le ts (NewTokenBucket cap i t0) t0 hch (le_refl t0)

/-- C5 witness: five instant calls on a bucket of capacity 3 created at 0
admit at most 3 + 0. -/
theorem tokenBucket_admission_bound_witness :
    runBucket (NewTokenBucket 3 1000000000 0) [0, 0, 0, 0, 0] ≤
      3 + ([0, 0, 0, 0, 0].getLastD 0 - 0) / 1000000000 :=
  tokenBucket_admission_bound 3 1000000000 0 [0, 0, 0, 0, 0]
    (.cons (le_refl 0) (.cons (le_refl 0) (.cons (le_refl 0)
      (.cons (le_refl 0) (.cons (le_refl 0) .nil)))))

/-! ## Claim C6: sliding-window admissions of the dual-window limiter -/

theorem PhiB_def (st : TokenBucket) (a b : Nat) :
    PhiB st a b = if a < st.lastRefill + st.refillRate then
      st.tokens + (b - st.lastRefill) / st.refillRate
    else st.maxTokens + (b - a) / st.refillRate := rfl

theorem refill_fields (t : TokenBucket) (now : Nat) :
    (0 < (now - t.lastRefill) / t.refillRate →
      (t.refill now).lastRefill = now ∧
      (t.refill now).tokens =
        min t.maxTokens (t.tokens + (now - t.lastRefill) / t.refillRate)) ∧
    ((now - t.lastRefill) / t.refillRate = 0 → t.refill now = t) := by
  constructor
  · intro h
    unfold TokenBucket.refill
    rw [if_pos h]
    exact ⟨rfl, goMin_eq_min _ _⟩
  · intro h
    unfold TokenBucket.refill
    simp [h]

theorem div_le_one_of_lt_two_mul (x i : Nat) (hi : 0 < i) (h : x < 2 * i) :
    x / i ≤ 1 := by
  have := (Nat.div_lt_iff_lt_mul hi).mpr h
  omega

theorem nondecFrom_chain (c : Nat) (ts : List Nat) (h : nondecFrom c ts = true) :
    List.Chain (· ≤ ·) c ts := by
  induction ts generalizing c with
  | nil => exact .nil
  | cons u rest ih =>
    rw [nondecFrom, Bool.and_eq_true] at h
    exact .cons (of_decide_eq_true h.1) (ih u h.2)

/-- One admission-check step never increases the window potential plus
the in-window admission count (for a window whose closed length equals
the bucket's refill interval). -/
theorem bucket_window_step (st : TokenBucket) (u a b : Nat)
    (hi : 0 < st.refillRate) (hb : b = a + st.refillRate)
    (hL : st.lastRefill ≤ u) (hub : u ≤ b) :
    (if (st.allow u).2 = true ∧ a ≤ u then 1 else 0) + PhiB (st.allow u).1 a b ≤
      PhiB st a b := by
  obtain ⟨hrate, hmax, hlast, htrue, hfalse⟩ := allow_state_fields st u
  by_cases hd : 0 < (u - st.lastRefill) / st.refillRate
  · obtain ⟨hLr, hTr⟩ := (refill_fields st u).1 hd
    have hstale : st.lastRefill + st.refillRate ≤ u := by
      have := (Nat.one_le_div_iff hi).mp hd
      omega
    cases hbool : (st.allow u).2
    · obtain ⟨hz, htok0⟩ := hfalse hbool
      rw [hTr] at hz
      have hmax0 : st.maxTokens = 0 := by omega
      simp only [hbool, Bool.false_eq_true, false_and, if_false, Nat.zero_add]
      rw [PhiB_def, PhiB_def, hrate, hmax, hlast, hLr, htok0, hmax0]
      by_cases hf1 : a < u + st.refillRate
      · rw [if_pos hf1]
        by_cases hf0 : a < st.lastRefill + st.refillRate
        · rw [if_pos hf0]
          have h2 : (b - u) / st.refillRate ≤ (b - st.lastRefill) / st.refillRate :=
            Nat.div_le_div_right (by omega)
          omega
        · rw [if_neg hf0]
          have h2 : (b - u) / st.refillRate ≤ 1 :=
            div_le_one_of_lt_two_mul _ _ hi (by omega)
          have h3 : (b - a) / st.refillRate = 1 := by
            rw [show b - a = st.refillRate by omega]
            exact Nat.div_self hi
          omega
      · rw [if_neg hf1]
        by_cases hf0 : a < st.lastRefill + st.refillRate
        · omega
        · rw [if_neg hf0]
    · obtain ⟨hpos, htokm⟩ := htrue hbool
      rw [hTr] at hpos htokm
      by_cases hau : a ≤ u
      · simp only [hbool, true_and, if_pos hau]
        rw [PhiB_def, PhiB_def, hrate, hmax, hlast, hLr, htokm]
        rw [if_pos (show a < u + st.refillRate by omega)]
        by_cases hf0 : a < st.lastRefill + st.refillRate
        · rw [if_pos hf0]
          have h1 : min st.maxTokens
              (st.tokens + (u - st.lastRefill) / st.refillRate) ≤
              st.tokens + (u - st.lastRefill) / st.refillRate := min_le_right _ _
          have h3 := div_add_div_le (u - st.lastRefill) (b - u) st.refillRate
          rw [show u - st.lastRefill + (b - u) = b - st.lastRefill by omega] at h3
          omega
        · rw [if_neg hf0]
          have h1 : min st.maxTokens
              (st.tokens + (u - st.lastRefill) / st.refillRate) ≤ st.maxTokens :=
            min_le_left _ _
          have h2 : (b - u) / st.refillRate ≤ (b - a) / st.refillRate :=
            Nat.div_le_div_right (by omega)
          have h3 : (b - a) / st.refillRate = 1 := by
            rw [show b - a = st.refillRate by omega]
            exact Nat.div_self hi
          omega
      · simp only [hbool, true_and, if_neg hau, Nat.zero_add]
        rw [PhiB_def, PhiB_def, hrate, hmax, hlast, hLr, htokm]
        rw [if_neg (show ¬ a < st.lastRefill + st.refillRate by omega)]
        by_cases hf1 : a < u + st.refillRate
        · rw [if_pos hf1]
          have h1 : min st.maxTokens
              (st.tokens + (u - st.lastRefill) / st.refillRate) ≤ st.maxTokens :=
            min_le_left _ _
          have h2 : (b - u) / st.refillRate ≤ 1 :=
            div_le_one_of_lt_two_mul _ _ hi (by omega)
          have h3 : (b - a) / st.refillRate = 1 := by
            rw [show b - a = st.refillRate by omega]
            exact Nat.div_self hi
          omega
        · rw [if_neg hf1]
  · have hd0 : (u - st.lastRefill) / st.refillRate = 0 := Nat.eq_zero_of_not_pos hd
    have hid : st.refill u = st := (refill_fields st u).2 hd0
    have hnotstale : ¬ st.lastRefill + st.refillRate ≤ u := by
      intro hcon
      have := (Nat.one_le_div_iff hi).mpr (show st.refillRate ≤ u - st.lastRefill by omega)
      omega
    cases hbool : (st.allow u).2
    · obtain ⟨hz, htok0⟩ := hfalse hbool
      rw [hid] at hz
      simp only [hbool, Bool.false_eq_true, false_and, if_false, Nat.zero_add]
      rw [PhiB_def, PhiB_def, hrate, hmax, hlast, hid, htok0, hz]
    · obtain ⟨hpos, htokm⟩ := htrue hbool
      rw [hid] at hpos htokm
      by_cases hau : a ≤ u
      · simp only [hbool, true_and, if_pos hau]
        rw [PhiB_def, PhiB_def, hrate, hmax, hlast, hid, htokm]
        rw [if_pos (show a < st.lastRefill + st.refillRate by omega),
          if_pos (show a < st.lastRefill + st.refillRate by omega)]
        omega
      · simp only [hbool, true_and, if_neg hau, Nat.zero_add]
        rw [PhiB_def, PhiB_def, hrate, hmax, hlast, hid, htokm]
        by_cases hf0 : a < st.lastRefill + st.refillRate
        · rw [if_pos hf0, if_pos hf0]
          omega
        · rw [if_neg hf0, if_neg hf0]

theorem Allow_minute_cases (r : RateLimiter) (now : Nat) :
    ((r.secondLimiter.allow now).2 = false ∧ (r.Allow now).2 = false ∧
      (r.Allow now).1.minuteLimiter = r.minuteLimiter) ∨
    ((r.secondLimiter.allow now).2 = true ∧
      (r.Allow now).2 = (r.minuteLimiter.allow now).2 ∧
      (r.Allow now).1.minuteLimiter = (r.minuteLimiter.allow now).1) := by
  cases hs : (r.secondLimiter.allow now).2
  · left
    refine ⟨rfl, ?_, ?_⟩ <;> simp [RateLimiter.Allow, hs]
  · right
    refine ⟨rfl, ?_, ?_⟩ <;> simp [RateLimiter.Allow, hs]

theorem runLimiterWindow_zero (ts : List Nat) : ∀ (r : RateLimiter) (c a b : Nat),
    List.Chain (· ≤ ·) c ts → b < c → runLimiterWindow r ts a b = 0 := by
  induction ts with
  | nil => intros; rfl
  | cons u rest ih =>
    intro r c a b hch hbc
    obtain ⟨hcu, hch2⟩ := List.chain_cons.mp hch
    simp only [runLimiterWindow]
    rw [if_neg (fun hc => absurd hc.2.2 (by omega)), Nat.zero_add]
    exact ih (r.Allow u).1 u a b hch2 (by omega)

theorem runLimiterWindow_le (ts : List Nat) : ∀ (r : RateLimiter) (c a b : Nat),
    0 < r.minuteLimiter.refillRate → b = a + r.minuteLimiter.refillRate →
    List.Chain (· ≤ ·) c ts → r.minuteLimiter.lastRefill ≤ c →
    runLimiterWindow r ts a b ≤ PhiB r.minuteLimiter a b := by
  induction ts with
  | nil => intros; exact Nat.zero_le _
  | cons u rest ih =>
    intro r c a b hi hb hch hL
    obtain ⟨hcu, hch2⟩ := List.chain_cons.mp hch
    have hLu : r.minuteLimiter.lastRefill ≤ u := le_trans hL hcu
    simp only [runLimiterWindow]
    by_cases hub : u ≤ b
    · rcases Allow_minute_cases r u with ⟨_, hfa, hmin⟩ | ⟨_, hok, hmin⟩
      · rw [if_neg (fun hc => by rw [hfa] at hc; exact Bool.false_ne_true hc.1),
          Nat.zero_add]
        have hrec := ih (r.Allow u).1 u a b (by rw [hmin]; exact hi)
          (by rw [hmin]; exact hb) hch2 (by rw [hmin]; exact hLu)
        rw [hmin] at hrec
        exact hrec
      · obtain ⟨hrate, _, hlast, _, _⟩ := allow_state_fields r.minuteLimiter u
        have hstep := bucket_window_step r.minuteLimiter u a b hi hb hLu hub
        have hrec := ih (r.Allow u).1 u a b
          (by rw [hmin, hrate]; exact hi) (by rw [hmin, hrate]; exact hb) hch2
          (by rw [hmin, hlast]; exact refill_lastRefill_le r.minuteLimiter u hLu)
        rw [hmin] at hrec
        by_cases hcond : (r.minuteLimiter.allow u).2 = true ∧ a ≤ u
        · rw [if_pos (show (r.Allow u).2 = true ∧ a ≤ u ∧ u ≤ b by
            exact ⟨by rw [hok]; exact hcond.1, hcond.2, hub⟩)]
          rw [if_pos hcond] at hstep
          omega
        · rw [if_neg (fun hc => hcond ⟨by rw [← hok]; exact hc.1, hc.2.1⟩),
            Nat.zero_add]
          rw [if_neg hcond, Nat.zero_add] at hstep
          omega
    · rw [if_neg (fun hc => absurd hc.2.2 hub), Nat.zero_add]
      have hz := runLimiterWindow_zero rest (r.Allow u).1 u a b hch2 (by omega)
      rw [hz]
      exact Nat.zero_le _

/-- C6, counterexample: on the jikan limiter created at time 0, the
61-call trace `c6trace` is nondecreasing, every call time lies in the
closed 60-second window `[0, 60s]`, and all 61 calls are admitted —
one more than the stricter window limit of 60 per minute. -/
theorem jikan_sliding_window_cex :
    60 < runLimiterWindow (jikanLimiter 0) c6trace 0 (0 + timeMinute) ∧
    List.Chain (· ≤ ·) 0 c6trace := by
  constructor
  · decide
  · exact nondecFrom_chain 0 c6trace (by decide)

/-- A bucket's window potential for a closed window whose length equals
its refill interval is at most its capacity plus one. -/
theorem PhiB_init_le (t : TokenBucket) (a : Nat) (hi : 0 < t.refillRate)
    (htok : t.tokens ≤ t.maxTokens) :
    PhiB t a (a + t.refillRate) ≤ t.maxTokens + 1 := by
  rw [PhiB_def]
  by_cases hf : a < t.lastRefill + t.refillRate
  · rw [if_pos hf]
    have h2 : (a + t.refillRate - t.lastRefill) / t.refillRate ≤ 1 :=
      div_le_one_of_lt_two_mul _ _ hi (by omega)
    omega
  · rw [if_neg hf]
    have h3 : (a + t.refillRate - a) / t.refillRate = 1 := by
      rw [show a + t.refillRate - a = t.refillRate by omega]
      exact Nat.div_self hi
    omega

/-- C6, amended: for every dual-window RateLimiter whose longer-window
bucket is within capacity and was last refilled no later than the first
call, and every nondecreasing call sequence, any sliding closed interval
whose length equals the longer window sees at most the longer-window
bucket's capacity plus one admissions; the extra admission comes from
refill credit that accrued before the window started.  Instantiated at
both limiters `NewAPIClient` builds: at most 61 = 60 + 1 for jikan
(3/s, 60/min) and at most 41 = 40 + 1 for tmdb (40 per 10s window in
both buckets) — for each, the bucket capacity is the stricter of its
two window limits. -/
theorem rateLimiter_window_admission_bound :
    (∀ (r : RateLimiter) (tc a : Nat) (ts : List Nat),
      0 < r.minuteLimiter.refillRate →
      r.minuteLimiter.tokens ≤ r.minuteLimiter.maxTokens →
      r.minuteLimiter.lastRefill ≤ tc →
      List.Chain (· ≤ ·) tc ts →
      runLimiterWindow r ts a (a + r.minuteLimiter.refillRate) ≤
        r.minuteLimiter.maxTokens + 1) ∧
    (∀ (tc a : Nat) (ts : List Nat), List.Chain (· ≤ ·) tc ts →
      runLimiterWindow (jikanLimiter tc) ts a (a + timeMinute) ≤ 60 + 1) ∧
    (∀ (tc a : Nat) (ts : List Nat), List.Chain (· ≤ ·) tc ts →
      runLimiterWindow (NewRateLimiter 40 (10 * timeSecond) tc) ts a
        (a + 10 * timeSecond) ≤ 40 + 1) := by
  have hgen : ∀ (r : RateLimiter) (tc a : Nat) (ts : List Nat),
      0 < r.minuteLimiter.refillRate →
      r.minuteLimiter.tokens ≤ r.minuteLimiter.maxTokens →
      r.minuteLimiter.lastRefill ≤ tc →
      List.Chain (· ≤ ·) tc ts →
      runLimiterWindow r ts a (a + r.minuteLimiter.refillRate) ≤
        r.minuteLimiter.maxTokens + 1 := by
    intro r tc a ts hi htok hL hch
    exact le_trans (runLimiterWindow_le ts r tc a (a + r.minuteLimiter.refillRate)
      hi rfl hch hL) (PhiB_init_le r.minuteLimiter a hi htok)
  refine ⟨hgen, fun tc a ts hch => ?_, fun tc a ts hch => ?_⟩
  · exact hgen (jikanLimiter tc) tc a ts (show (0 : Nat) < timeMinute by decide)
      (le_refl 60) (le_refl tc) hch
  · exact hgen (NewRateLimiter 40 (10 * timeSecond) tc) tc a ts
      (show (0 : Nat) < 10 * timeSecond by decide) (le_refl 40) (le_refl tc) hch

/-- C6 witness for the amended bound: the general part applied to a
concrete fresh limiter and a concrete two-call trace. -/
theorem rateLimiter_window_admission_bound_witness :
    runLimiterWindow ⟨⟨3, 3, 0, timeSecond⟩, ⟨60, 60, 0, timeMinute⟩⟩ [0, timeSecond] 0
      (0 + (⟨60, 60, 0, timeMinute⟩ : TokenBucket).refillRate) ≤
      (⟨60, 60, 0, timeMinute⟩ : TokenBucket).maxTokens + 1 :=
  rateLimiter_window_admission_bound.1 ⟨⟨3, 3, 0, timeSecond⟩, ⟨60, 60, 0, timeMinute⟩⟩
    0 0 [0, timeSecond] (by decide) (by decide) (by decide)
    (.cons (le_refl 0) (.cons (by decide) .nil))

/-! ## Claim C8: the 3-in-4 jikan burst scenario -/

theorem string_append_left_cancel (p a b : String) (h : p ++ a = p ++ b) : a = b := by
  have hd : (p ++ a).data = (p ++ b).data := congrArg String.data h
  rw [String.data_append, String.data_append] at hd
  exact String.ext (List.append_cancel_left hd)

theorem allow_no_refill (t : TokenBucket) (u : Nat)
    (h : u - t.lastRefill < t.refillRate) : t.refill u = t :=
  (refill_fields t u).2 (Nat.div_eq_of_lt h)

theorem allow_of_no_refill_pos (t : TokenBucket) (u : Nat)
    (h : u - t.lastRefill < t.refillRate) (hpos : 0 < t.tokens) :
    t.allow u = ({ t with tokens := t.tokens - 1 }, true) := by
  unfold TokenBucket.allow
  rw [allow_no_refill t u h, if_pos hpos]

theorem allow_of_no_refill_zero (t : TokenBucket) (u : Nat)
    (h : u - t.lastRefill < t.refillRate) (hz : t.tokens = 0) :
    t.allow u = (t, false) := by
  unfold TokenBucket.allow
  rw [allow_no_refill t u h, if_neg (by omega)]

theorem jikanAllow_step (s m tc u : Nat) (hs : 0 < s) (hm : 0 < m)
    (hu1 : u - tc < timeSecond) (hu2 : u - tc < timeMinute) :
    RateLimiter.Allow ⟨⟨s, 3, tc, timeSecond⟩, ⟨m, 60, tc, timeMinute⟩⟩ u =
      (⟨⟨s - 1, 3, tc, timeSecond⟩, ⟨m - 1, 60, tc, timeMinute⟩⟩, true) := by
  have h1 := allow_of_no_refill_pos ⟨s, 3, tc, timeSecond⟩ u hu1 hs
  have h2 := allow_of_no_refill_pos ⟨m, 60, tc, timeMinute⟩ u hu2 hm
  simp [RateLimiter.Allow, h1, h2]

theorem jikanAllow_reject (m tc u : Nat) (hu1 : u - tc < timeSecond) :
    RateLimiter.Allow ⟨⟨0, 3, tc, timeSecond⟩, ⟨m, 60, tc, timeMinute⟩⟩ u =
      (⟨⟨0, 3, tc, timeSecond⟩, ⟨m, 60, tc, timeMinute⟩⟩, false) := by
  have h1 := allow_of_no_refill_zero ⟨0, 3, tc, timeSecond⟩ u hu1 rfl
  simp [RateLimiter.Allow, h1]

theorem getCache_not_found (c : Cache) (key : String) (now : Nat)
    (h : c.lookup key = none) : getCache c key now = (c, none, false) := by
  simp [getCache, h]

/-- C8: on a freshly built client, four gateway queries for pairwise
distinct (hence uncached) keys, all within 200ms of the client's
creation, yield exactly three successes — each performing a network
call — and one `rateLimitExceeded` failure with no network call. -/
theorem jikan_four_queries_scenario
    (key q₁ q₂ q₃ q₄ : String) (tc t₁ t₂ t₃ t₄ s₁ s₂ s₃ : Nat)
    (sr₁ sr₂ sr₃ : JikanSearchResponse) (transport₄ : Option HTTPResponse)
    (o₁ o₂ o₃ o₄ : SearchOutcome)
    (h12 : q₁ ≠ q₂) (h13 : q₁ ≠ q₃) (h14 : q₁ ≠ q₄)
    (h23 : q₂ ≠ q₃) (h24 : q₂ ≠ q₄) (h34 : q₃ ≠ q₄)
    (ht0 : tc ≤ t₁) (ht1 : t₁ ≤ t₂) (ht2 : t₂ ≤ t₃) (ht3 : t₃ ≤ t₄)
    (ht4 : t₄ ≤ tc + 200 * timeMillisecond)
    (ho₁ : o₁ = (NewAPIClient key tc).SearchAnime q₁ t₁ (some ⟨s₁, some sr₁⟩))
    (ho₂ : o₂ = o₁.client.SearchAnime q₂ t₂ (some ⟨s₂, some sr₂⟩))
    (ho₃ : o₃ = o₂.client.SearchAnime q₃ t₃ (some ⟨s₃, some sr₃⟩))
    (ho₄ : o₄ = o₃.client.SearchAnime q₄ t₄ transport₄) :
    o₁.networkCalled = true ∧ o₁.result = .ok sr₁.data ∧
    o₂.networkCalled = true ∧ o₂.result = .ok sr₂.data ∧
    o₃.networkCalled = true ∧ o₃.result = .ok sr₃.data ∧
    o₄.networkCalled = false ∧ o₄.result = .error .rateLimitExceeded := by
  have hsec : timeSecond = 1000000000 := rfl
  have hms : timeMillisecond = 1000000 := rfl
  have hmin : timeMinute = 60000000000 := rfl
  have hb₁ : t₁ - tc < timeSecond := by omega
  have hb₂ : t₂ - tc < timeSecond := by omega
  have hb₃ : t₃ - tc < timeSecond := by omega
  have hb₄ : t₄ - tc < timeSecond := by omega
  have hn₁ : t₁ - tc < timeMinute := by omega
  have hn₂ : t₂ - tc < timeMinute := by omega
  have hn₃ : t₃ - tc < timeMinute := by omega
  have bq21 : (("jikan:" ++ q₂) == ("jikan:" ++ q₁)) = false :=
    beq_eq_false_iff_ne.mpr (fun hc => h12 (string_append_left_cancel _ _ _ hc).symm)
  have bq31 : (("jikan:" ++ q₃) == ("jikan:" ++ q₁)) = false :=
    beq_eq_false_iff_ne.mpr (fun hc => h13 (string_append_left_cancel _ _ _ hc).symm)
  have bq32 : (("jikan:" ++ q₃) == ("jikan:" ++ q₂)) = false :=
    beq_eq_false_iff_ne.mpr (fun hc => h23 (string_append_left_cancel _ _ _ hc).symm)
  have bq41 : (("jikan:" ++ q₄) == ("jikan:" ++ q₁)) = false :=
    beq_eq_false_iff_ne.mpr (fun hc => h14 (string_append_left_cancel _ _ _ hc).symm)
  have bq42 : (("jikan:" ++ q₄) == ("jikan:" ++ q₂)) = false :=
    beq_eq_false_iff_ne.mpr (fun hc => h24 (string_append_left_cancel _ _ _ hc).symm)
  have bq43 : (("jikan:" ++ q₄) == ("jikan:" ++ q₃)) = false :=
    beq_eq_false_iff_ne.mpr (fun hc => h34 (string_append_left_cancel _ _ _ hc).symm)
  have n12 : (("jikan:" ++ q₁) != ("jikan:" ++ q₂)) = true := by
    simp only [bne]
    rw [beq_eq_false_iff_ne.mpr (fun hc => h12 (string_append_left_cancel _ _ _ hc))]
    rfl
  have n13 : (("jikan:" ++ q₁) != ("jikan:" ++ q₃)) = true := by
    simp only [bne]
    rw [beq_eq_false_iff_ne.mpr (fun hc => h13 (string_append_left_cancel _ _ _ hc))]
    rfl
  have n23 : (("jikan:" ++ q₂) != ("jikan:" ++ q₃)) = true := by
    simp only [bne]
    rw [beq_eq_false_iff_ne.mpr (fun hc => h23 (string_append_left_cancel _ _ _ hc))]
    rfl
  have hA₁ : (jikanLimiter tc).Allow t₁ =
      (⟨⟨2, 3, tc, timeSecond⟩, ⟨59, 60, tc, timeMinute⟩⟩, true) := by
    simpa using jikanAllow_step 3 60 tc t₁ (by omega) (by omega) hb₁ hn₁
  have hA₂ : RateLimiter.Allow ⟨⟨2, 3, tc, timeSecond⟩, ⟨59, 60, tc, timeMinute⟩⟩ t₂ =
      (⟨⟨1, 3, tc, timeSecond⟩, ⟨58, 60, tc, timeMinute⟩⟩, true) := by
    simpa using jikanAllow_step 2 59 tc t₂ (by omega) (by omega) hb₂ hn₂
  have hA₃ : RateLimiter.Allow ⟨⟨1, 3, tc, timeSecond⟩, ⟨58, 60, tc, timeMinute⟩⟩ t₃ =
      (⟨⟨0, 3, tc, timeSecond⟩, ⟨57, 60, tc, timeMinute⟩⟩, true) := by
    simpa using jikanAllow_step 1 58 tc t₃ (by omega) (by omega) hb₃ hn₃
  have hA₄ : RateLimiter.Allow ⟨⟨0, 3, tc, timeSecond⟩, ⟨57, 60, tc, timeMinute⟩⟩ t₄ =
      (⟨⟨0, 3, tc, timeSecond⟩, ⟨57, 60, tc, timeMinute⟩⟩, false) :=
    jikanAllow_reject 57 tc t₄ hb₄
  have E₁ : o₁ =
      { client :=
          { tmdbAPIKey := key,
            rateLimiters := [("jikan", ⟨⟨2, 3, tc, timeSecond⟩, ⟨59, 60, tc, timeMinute⟩⟩),
              ("tmdb", NewRateLimiter 40 (10 * timeSecond) tc)],
            cache := [("jikan:" ++ q₁, ⟨.jikanList sr₁.data, t₁ + timeHour⟩)] },
        result := .ok sr₁.data, networkCalled := true } := by
    rw [ho₁, searchAnime_success (NewAPIClient key tc) q₁ t₁ s₁ sr₁ (jikanLimiter tc)
      rfl rfl (by rw [hA₁])]
    simp [NewAPIClient, updateLimiter, hA₁, setCache, getCache, eraseKey]
  have E₂ : o₂ =
      { client :=
          { tmdbAPIKey := key,
            rateLimiters := [("jikan", ⟨⟨1, 3, tc, timeSecond⟩, ⟨58, 60, tc, timeMinute⟩⟩),
              ("tmdb", NewRateLimiter 40 (10 * timeSecond) tc)],
            cache := [("jikan:" ++ q₂, ⟨.jikanList sr₂.data, t₂ + timeHour⟩),
              ("jikan:" ++ q₁, ⟨.jikanList sr₁.data, t₁ + timeHour⟩)] },
        result := .ok sr₂.data, networkCalled := true } := by
    rw [ho₂, E₁]
    dsimp only
    have hmiss₂ : (getCache [("jikan:" ++ q₁, ⟨.jikanList sr₁.data, t₁ + timeHour⟩)]
        ("jikan:" ++ q₂) t₂).2.2 = false := by
      rw [getCache_not_found _ _ _ (by simp [List.lookup, bq21])]
    rw [searchAnime_success
      { tmdbAPIKey := key,
        rateLimiters := [("jikan", ⟨⟨2, 3, tc, timeSecond⟩, ⟨59, 60, tc, timeMinute⟩⟩),
          ("tmdb", NewRateLimiter 40 (10 * timeSecond) tc)],
        cache := [("jikan:" ++ q₁, ⟨.jikanList sr₁.data, t₁ + timeHour⟩)] }
      q₂ t₂ s₂ sr₂ ⟨⟨2, 3, tc, timeSecond⟩, ⟨59, 60, tc, timeMinute⟩⟩
      hmiss₂ rfl (by rw [hA₂])]
    simp [updateLimiter, hA₂, setCache, getCache, eraseKey, List.lookup, bq21, n12]
  have E₃ : o₃ =
      { client :=
          { tmdbAPIKey := key,
            rateLimiters := [("jikan", ⟨⟨0, 3, tc, timeSecond⟩, ⟨57, 60, tc, timeMinute⟩⟩),
              ("tmdb", NewRateLimiter 40 (10 * timeSecond) tc)],
            cache := [("jikan:" ++ q₃, ⟨.jikanList sr₃.data, t₃ + timeHour⟩),
              ("jikan:" ++ q₂, ⟨.jikanList sr₂.data, t₂ + timeHour⟩),
              ("jikan:" ++ q₁, ⟨.jikanList sr₁.data, t₁ + timeHour⟩)] },
        result := .ok sr₃.data, networkCalled := true } := by
    rw [ho₃, E₂]
    dsimp only
    have hmiss₃ : (getCache [("jikan:" ++ q₂, ⟨.jikanList sr₂.data, t₂ + timeHour⟩),
        ("jikan:" ++ q₁, ⟨.jikanList sr₁.data, t₁ + timeHour⟩)]
        ("jikan:" ++ q₃) t₃).2.2 = false := by
      rw [getCache_not_found _ _ _ (by simp [List.lookup, bq31, bq32])]
    rw [searchAnime_success
      { tmdbAPIKey := key,
        rateLimiters := [("jikan", ⟨⟨1, 3, tc, timeSecond⟩, ⟨58, 60, tc, timeMinute⟩⟩),
          ("tmdb", NewRateLimiter 40 (10 * timeSecond) tc)],
        cache := [("jikan:" ++ q₂, ⟨.jikanList sr₂.data, t₂ + timeHour⟩),
          ("jikan:" ++ q₁, ⟨.jikanList sr₁.data, t₁ + timeHour⟩)] }
      q₃ t₃ s₃ sr₃ ⟨⟨1, 3, tc, timeSecond⟩, ⟨58, 60, tc, timeMinute⟩⟩
      hmiss₃ rfl (by rw [hA₃])]
    simp [updateLimiter, hA₃, setCache, getCache, eraseKey, List.lookup, bq31, bq32,
      n13, n23]
  have hmiss₄ : (getCache [("jikan:" ++ q₃, ⟨.jikanList sr₃.data, t₃ + timeHour⟩),
      ("jikan:" ++ q₂, ⟨.jikanList sr₂.data, t₂ + timeHour⟩),
      ("jikan:" ++ q₁, ⟨.jikanList sr₁.data, t₁ + timeHour⟩)]
      ("jikan:" ++ q₄) t₄).2.2 = false := by
    rw [getCache_not_found _ _ _ (by simp [List.lookup, bq41, bq42, bq43])]
  have E₄ : o₄.networkCalled = false ∧ o₄.result = .error .rateLimitExceeded := by
    rw [ho₄, E₃]
    dsimp only
    rw [searchAnime_ratelimited
      { tmdbAPIKey := key,
        rateLimiters := [("jikan", ⟨⟨0, 3, tc, timeSecond⟩, ⟨57, 60, tc, timeMinute⟩⟩),
          ("tmdb", NewRateLimiter 40 (10 * timeSecond) tc)],
        cache := [("jikan:" ++ q₃, ⟨.jikanList sr₃.data, t₃ + timeHour⟩),
          ("jikan:" ++ q₂, ⟨.jikanList sr₂.data, t₂ + timeHour⟩),
          ("jikan:" ++ q₁, ⟨.jikanList sr₁.data, t₁ + timeHour⟩)] }
      q₄ t₄ transport₄
      ⟨⟨0, 3, tc, timeSecond⟩, ⟨57, 60, tc, timeMinute⟩⟩ hmiss₄ rfl (by rw [hA₄])]
    exact ⟨rfl, rfl⟩
  exact ⟨by rw [E₁], by rw [E₁], by rw [E₂], by rw [E₂], by rw [E₃], by rw [E₃],
    E₄.1, E₄.2⟩

/-- C8 witness: a concrete run with queries "a" "b" "c" "d" at times 0,
50ms, 100ms, 200ms after creation at time 0. -/
theorem jikan_four_queries_scenario_witness :
    (((NewAPIClient "" 0).SearchAnime "a" 0 (some ⟨200, some ⟨[]⟩⟩))).networkCalled = true ∧
    (((NewAPIClient "" 0).SearchAnime "a" 0
      (some ⟨200, some ⟨[]⟩⟩))).result = .ok (⟨[]⟩ : JikanSearchResponse).data ∧
    ((((NewAPIClient "" 0).SearchAnime "a" 0 (some ⟨200, some ⟨[]⟩⟩)).client.SearchAnime
      "b" 50000000 (some ⟨200, some ⟨[]⟩⟩))).networkCalled = true ∧
    ((((NewAPIClient "" 0).SearchAnime "a" 0 (some ⟨200, some ⟨[]⟩⟩)).client.SearchAnime
      "b" 50000000 (some ⟨200, some ⟨[]⟩⟩))).result = .ok (⟨[]⟩ : JikanSearchResponse).data ∧
    (((((NewAPIClient "" 0).SearchAnime "a" 0 (some ⟨200, some ⟨[]⟩⟩)).client.SearchAnime
      "b" 50000000 (some ⟨200, some ⟨[]⟩⟩)).client.SearchAnime
      "c" 100000000 (some ⟨200, some ⟨[]⟩⟩))).networkCalled = true ∧
    (((((NewAPIClient "" 0).SearchAnime "a" 0 (some ⟨200, some ⟨[]⟩⟩)).client.SearchAnime
      "b" 50000000 (some ⟨200, some ⟨[]⟩⟩)).client.SearchAnime
      "c" 100000000 (some ⟨200, some ⟨[]⟩⟩))).result = .ok (⟨[]⟩ : JikanSearchResponse).data ∧
    ((((((NewAPIClient "" 0).SearchAnime "a" 0 (some ⟨200, some ⟨[]⟩⟩)).client.SearchAnime
      "b" 50000000 (some ⟨200, some ⟨[]⟩⟩)).client.SearchAnime
      "c" 100000000 (some ⟨200, some ⟨[]⟩⟩)).client.SearchAnime
      "d" 200000000 none)).networkCalled = false ∧
    ((((((NewAPIClient "" 0).SearchAnime "a" 0 (some ⟨200, some ⟨[]⟩⟩)).client.SearchAnime
      "b" 50000000 (some ⟨200, some ⟨[]⟩⟩)).client.SearchAnime
      "c" 100000000 (some ⟨200, some ⟨[]⟩⟩)).client.SearchAnime
      "d" 200000000 none)).result = .error .rateLimitExceeded :=
  jikan_four_queries_scenario "" "a" "b" "c" "d" 0 0 50000000 100000000 200000000
    200 200 200 ⟨[]⟩ ⟨[]⟩ ⟨[]⟩ none _ _ _ _
    (by decide) (by decide) (by decide) (by decide) (by decide) (by decide)
    (by omega) (by omega) (by omega) (by omega) (by decide)
    rfl rfl rfl rfl

end MTracker
